import Mathlib

/-!
# Verification of the Micronaut project-build helper (`projectBuild.ts`)

A shallow embedding of the build/deploy goal logic of the vscode Micronaut
extension: the Gradle task-report parser, the Maven/Gradle terminal-command
synthesizers, the wrapper dispatcher, and the `build` driver, together with
theorems about them.

JavaScript strings are embedded as their character sequences: a text being
processed is a `List Char`, `split('\n')` is `splitOnNL`, `trim()` is
`trimChars`, `startsWith` is a list-prefix test.  External collaborators
(the editor UI, the filesystem probe, the spawned Gradle process,
`getJavaHome`/`findExecutable` from the `utils` module that is not part of
this fragment) are modelled as explicit inputs: an `Env` record carries the
outcome of every probe and every user interaction, and `build` returns a
`BuildResult` record describing the observable effects.
-/

namespace Micronaut

/-- A selectable goal, i.e. the `vscode.QuickPickItem` built by the code:
a `label` (the goal/task name) and a `detail` (its description). -/
structure Goal where
  label : String
  detail : String
deriving DecidableEq, Repr

/-- The `Goals` interface: the build-goal list and deploy-goal list. -/
structure Goals where
  build : List Goal
  deploy : List Goal
deriving DecidableEq, Repr

/-- Embedding of JavaScript `s.split('\n')`: split a character sequence at
every newline; `n + 1` pieces for `n` newlines, empty pieces included. -/
def splitOnNL : List Char → List (List Char)
  | [] => [[]]
  | c :: cs =>
    if c = '\n' then [] :: splitOnNL cs
    else
      match splitOnNL cs with
      | l :: ls => (c :: l) :: ls
      | [] => [[c]]

/-- Embedding of JavaScript `s.trim()`: drop whitespace from both ends. -/
def trimChars (l : List Char) : List Char :=
  ((l.dropWhile Char.isWhitespace).reverse.dropWhile Char.isWhitespace).reverse

/-! ## The line regex `/(\S+)\s*-\s*(.*)/`

JavaScript `line.match(/(\S+)\s*-\s*(.*)/)` performs a leftmost search with
greedy backtracking.  `matchTail` handles the `\s*-\s*(.*)` part after the
token, `matchToken` the greedy `(\S+)` (preferring the longest token, i.e.
the deepest success), and `matchLine` the leftmost scan over start
positions.  The returned pair is (capture group 1, capture group 2). -/

/-- Match `\s*-\s*(.*)` against `cs`: skip whitespace, require a hyphen,
skip whitespace, return the rest as the description group. -/
def matchTail (cs : List Char) : Option (List Char) :=
  match cs.dropWhile Char.isWhitespace with
  | '-' :: rest => some (rest.dropWhile Char.isWhitespace)
  | _ => none

/-- Match `(\S+)\s*-\s*(.*)` at the start of `cs`, extending the token
greedily (a longer token is preferred whenever the remainder still
matches). -/
def matchToken : List Char → Option (List Char × List Char)
  | [] => none
  | c :: cs =>
    if c.isWhitespace then none
    else
      match matchToken cs with
      | some (tok, det) => some (c :: tok, det)
      | none =>
        match matchTail cs with
        | some det => some ([c], det)
        | none => none

/-- Search `(\S+)\s*-\s*(.*)` anywhere in `cs`, leftmost start first:
the embedding of JavaScript `String.prototype.match` for this regex. -/
def matchLine : List Char → Option (List Char × List Char)
  | [] => none
  | c :: cs =>
    match matchToken (c :: cs) with
    | some r => some r
    | none => matchLine cs

/-! ## `parseAvailableGradleGoals` -/

/-- The effect of lines 149–153 of `projectBuild.ts` on one (trimmed)
in-section line: a line starting with `---` is skipped, otherwise the line
is matched against `/(\S+)\s*-\s*(.*)/` and on success a goal with the two
capture groups is produced.  (`info.length >= 3` always holds when the
match succeeds, since the regex has exactly two groups.) -/
def lineGoal (line : List Char) : Option Goal :=
  if ['-', '-', '-'].isPrefixOf line then none
  else
    match matchLine line with
    | some (tok, det) => some ⟨String.mk tok, String.mk det⟩
    | none => none

/-- One iteration of the `forEach` body of `parseAvailableGradleGoals`:
state is the `process` flag paired with the accumulated goals.  Inside the
section a blank line clears the flag (and, as in the code, the line still
reaches the pattern matcher, where it cannot match); outside the section a
line equal to the category header sets the flag. -/
def parseStep (category : List Char) (st : Bool × List Goal)
    (line : List Char) : Bool × List Goal :=
  if st.1 then
    let processNext := if line.length = 0 then false else true
    match lineGoal line with
    | some g => (processNext, st.2 ++ [g])
    | none => (processNext, st.2)
  else
    if line = category then (true, st.2) else st

/-- Fold `parseStep` over a list of already-trimmed lines, starting with the
flag `false` and no goals. -/
def parseLines (category : List Char) (lines : List (List Char)) :
    Bool × List Goal :=
  lines.foldl (parseStep category) (false, [])

/-- Function `parseAvailableGradleGoals(out, category)`: split the report on
newlines, trim every line, and scan for the section named `category`. -/
def parseAvailableGradleGoals (out category : String) : List Goal :=
  (parseLines category.toList ((splitOnNL out.toList).map trimChars)).2

/-! ## Command synthesis -/

/-- Worker for `escapeWS`: the flag records whether the previous character
was whitespace (i.e. whether we are already inside a run being escaped).
A backslash is inserted exactly before the first character of each maximal
whitespace run. -/
def escapeWSAux : Bool → List Char → List Char
  | _, [] => []
  | prevWS, c :: cs =>
    if c.isWhitespace then
      if prevWS then c :: escapeWSAux true cs
      else '\\' :: c :: escapeWSAux true cs
    else c :: escapeWSAux false cs

/-- Embedding of `wrapper.fsPath.replace(/(\s+)/g, '\\$1')`: every maximal
whitespace run is replaced by the same run preceded by a backslash. -/
def escapeWS (l : List Char) : List Char :=
  escapeWSAux false l

/-- The escaped executable path (`const exec = ...` in both synthesizers). -/
def escapeString (s : String) : String :=
  String.mk (escapeWS s.toList)

/-- Function `terminalGradleCommandFor`: escaped wrapper path, the goal unchanged,
and `--no-daemon`.  `if (exec)` is the JavaScript truthiness test, i.e. the
empty string yields no command. -/
def terminalGradleCommandFor (fsPath goal : String) : Option String :=
  let exec := escapeString fsPath
  if exec = "" then none
  else some (exec ++ " " ++ goal ++ " --no-daemon")

/-- Function `terminalMavenCommandFor`: the `switch` on the abstract goal followed by
`<exec> <command>`; both `if (exec)` and `if (command)` are truthiness
tests on strings. -/
def terminalMavenCommandFor (fsPath goal : String) : Option String :=
  let exec := escapeString fsPath
  if exec = "" then none
  else
    let command : String :=
      if goal = "build" then "compile"
      else if goal = "nativeImage" then "package -Dpackaging=native-image"
      else if goal = "dockerBuild" then "package -Dpackaging=docker"
      else if goal = "dockerBuildNative" then "package -Dpackaging=docker-native"
      else if goal = "dockerPush" then "deploy -Dpackaging=docker"
      else if goal = "dockerPushNative" then "deploy -Dpackaging=docker-native"
      else goal
    if command = "" then none
    else some (exec ++ " " ++ command)

/-! ## Wrapper location and catalog assembly -/

/-- Outcome of the external workspace probes consumed by `buildWrapper` and
`getAvailableGradleGoals`: the path of the first matching Gradle wrapper
(`findFiles('**/gradlew'...)[0]`, `none` when the result array is empty),
likewise for the Maven wrapper, and the captured text produced by running
the Gradle wrapper with `tasks --no-daemon --project-dir=...` (an opaque
external process). -/
structure Workspace where
  gradleWrapper : Option String
  mavenWrapper : Option String
  gradleTasksOutput : String

/-- Function `buildWrapper(gradle?, maven?)`: invoke the Gradle handler on the first
Gradle wrapper when both exist; otherwise invoke the Maven handler on the
first Maven wrapper when both exist; otherwise produce nothing. -/
def buildWrapper {T : Type} (ws : Workspace)
    (gradle maven : Option (String → T)) : Option T :=
  match gradle, ws.gradleWrapper with
  | some g, some w => some (g w)
  | _, _ =>
    match maven, ws.mavenWrapper with
    | some m, some w => some (m w)
    | _, _ => none

/-- Function `getAvailableMavenGoals`: the fixed hardcoded catalog. -/
def getAvailableMavenGoals : Goals :=
  { build := [
      ⟨"clean", "Cleans the project"⟩,
      ⟨"compile", "Compiles the source code of the project"⟩,
      ⟨"package", "Packages the compiled code in its distributable format"⟩,
      ⟨"nativeImage", "Packages the compiled code as a GraalVM native image"⟩,
      ⟨"dockerBuild", "Builds a Docker image with the application artifacts"⟩,
      ⟨"dockerBuildNative", "Builds a Docker image with a GraalVM native image inside"⟩],
    deploy := [
      ⟨"dockerPush", "Pushes a Docker Image"⟩,
      ⟨"dockerPushNative", "Pushes a Native Docker Image using GraalVM"⟩] }

/-- Function `getAvailableGradleGoals`: run the wrapper's task listing (its captured
output is `ws.gradleTasksOutput`) and parse the two sections. -/
def getAvailableGradleGoals (ws : Workspace) (_wrapper : String) : Goals :=
  { build := parseAvailableGradleGoals ws.gradleTasksOutput "Build tasks",
    deploy := parseAvailableGradleGoals ws.gradleTasksOutput "Upload tasks" }

/-- Function `builderInit`: populate the catalog, defaulting to empty sequences when
no wrapper is found. -/
def builderInit (ws : Workspace) : Goals :=
  (buildWrapper ws (some (getAvailableGradleGoals ws))
    (some (fun _ => getAvailableMavenGoals))).getD { build := [], deploy := [] }

/-- Function `terminalCommandFor(goal)`: dispatch command synthesis through
`buildWrapper`; the two layers of `undefined` collapse in JavaScript, hence
the `Option.join`. -/
def terminalCommandFor (ws : Workspace) (goal : String) : Option String :=
  (buildWrapper ws (some (fun w => terminalGradleCommandFor w goal))
    (some (fun w => terminalMavenCommandFor w goal))).join

/-! ## The `build` driver -/

/-- JavaScript truthiness of a possibly-undefined string: defined and
non-empty. -/
def truthyS : Option String → Bool
  | none => false
  | some s => if s = "" then false else true

/-- Outcome of every external probe and user interaction reaching `build`:
the workspace, `getJavaHome()`, the two `findExecutable` probes inside that
Java home, the user's quick-pick choice (`none` models dismissing the
picker), whether the user accepts the `Install native-image` action, and
whether a terminal named `Micronaut` already exists. -/
structure Env where
  workspace : Workspace
  javaHome : Option String
  hasNativeImage : Bool
  hasGu : Bool
  quickPick : List Goal → Option Goal
  acceptInstall : Bool
  hasMicronautTerminal : Bool

/-- The observable effects of one `build(goal?, group?)` call. -/
structure BuildResult where
  pickerShown : Bool
  chosenGoal : Option String
  installOffered : Bool
  installAborted : Bool
  warningShown : Bool
  command : Option String
  terminalDisposed : Bool
  terminalCreated : Bool
  errorThrown : Bool
deriving DecidableEq, Repr

/-- Assignment `group = group || 'build'`: an undefined or empty group falls back to
`'build'`. -/
def normGroup : Option String → String
  | none => "build"
  | some g => if g = "" then "build" else g

/-- Lookup `goals[group as keyof Goals]`.  Every call site passes `'build'` or
`'deploy'`; the lookup is total on those two keys. -/
def goalsFor (catalog : Goals) (group : String) : List Goal :=
  if group = "deploy" then catalog.deploy else catalog.build

/-- Lines 29–38 of `build`: when the incoming goal is falsy, resolve one
from the catalog — the hardcoded default for an empty catalog, the quick
pick for two or more items, the single item directly.  Returns whether the
picker was shown and the resulting goal variable (unchanged when the picker
is dismissed). -/
def selectGoal (items : List Goal) (env : Env) (goal0 : Option String) :
    Bool × Option String :=
  if truthyS goal0 then (false, goal0)
  else if items.length = 0 then (false, some "build")
  else if 1 < items.length then
    match env.quickPick items with
    | some it => (true, some it.label)
    | none => (true, goal0)
  else
    match items.head? with
    | some it => (false, some it.label)
    | none => (false, goal0)

/-- A run of `build` that never reached a truthy goal: nothing happens
beyond possibly having shown the picker. -/
def idleResult (shown : Bool) : BuildResult :=
  { pickerShown := shown, chosenGoal := none, installOffered := false,
    installAborted := false, warningShown := false, command := none,
    terminalDisposed := false, terminalCreated := false, errorThrown := false }

/-- Lines 56–72 of `build`: synthesize the command and either send it to a
fresh `Micronaut` terminal (disposing a pre-existing one) or throw
`No terminal command for <goal>`. -/
def proceedBuild (env : Env) (shown : Bool) (goal : String)
    (offered warned : Bool) : BuildResult :=
  match terminalCommandFor env.workspace goal with
  | some c =>
    if c = "" then
      { pickerShown := shown, chosenGoal := some goal,
        installOffered := offered, installAborted := false,
        warningShown := warned, command := none, terminalDisposed := false,
        terminalCreated := false, errorThrown := true }
    else
      { pickerShown := shown, chosenGoal := some goal,
        installOffered := offered, installAborted := false,
        warningShown := warned, command := some c,
        terminalDisposed := env.hasMicronautTerminal,
        terminalCreated := true, errorThrown := false }
  | none =>
    { pickerShown := shown, chosenGoal := some goal,
      installOffered := offered, installAborted := false,
      warningShown := warned, command := none, terminalDisposed := false,
      terminalCreated := false, errorThrown := true }

/-- Lines 39–73 of `build`, entered with a truthy goal: the native-image
pre-check followed by synthesis and execution.  The pre-check aborts the
request only when `gu` is found and the user accepts the offered
`Install native-image` action; dismissing the message falls through to
synthesis, and a missing `gu` merely emits a warning. -/
def runGoal (env : Env) (shown : Bool) (goal : String) : BuildResult :=
  if truthyS env.javaHome = true ∧
      (goal = "nativeImage" ∨ goal = "dockerBuildNative") then
    if env.hasNativeImage then proceedBuild env shown goal false false
    else if env.hasGu then
      if env.acceptInstall then
        { pickerShown := shown, chosenGoal := some goal,
          installOffered := true, installAborted := true,
          warningShown := false, command := none, terminalDisposed := false,
          terminalCreated := false, errorThrown := false }
      else proceedBuild env shown goal true false
    else proceedBuild env shown goal false true
  else proceedBuild env shown goal false false

/-- The exported `build(goal?, group?)` entry point. -/
def build (catalog : Goals) (env : Env) (goal0 group0 : Option String) :
    BuildResult :=
  let items := goalsFor catalog (normGroup group0)
  let sel := selectGoal items env goal0
  match sel.2 with
  | some g => if g = "" then idleResult sel.1 else runGoal env sel.1 g
  | none => idleResult sel.1

/-- The declarative reading of `/(\S+)\s*-\s*(.*)/` matching somewhere in
`line` with capture groups `lab` and `det`: at some position a non-empty
whitespace-free token starts, followed by optional whitespace, a literal
hyphen, optional whitespace, and the description running to the end of the
line. -/
def PatternMatch (line : List Char) (lab det : String) : Prop :=
  ∃ p w1 w2 : List Char,
    line = p ++ lab.toList ++ w1 ++ '-' :: (w2 ++ det.toList) ∧
    lab.toList ≠ [] ∧ (∀ c ∈ lab.toList, ¬ c.isWhitespace) ∧
    (∀ c ∈ w1, c.isWhitespace) ∧ (∀ c ∈ w2, c.isWhitespace)

/-- The fixed abstract-goal → Maven-expression lookup table stated by the
specification. -/
def mavenGoalTable : List (String × String) :=
  [("build", "compile"),
   ("nativeImage", "package -Dpackaging=native-image"),
   ("dockerBuild", "package -Dpackaging=docker"),
   ("dockerBuildNative", "package -Dpackaging=docker-native"),
   ("dockerPush", "deploy -Dpackaging=docker"),
   ("dockerPushNative", "deploy -Dpackaging=docker-native")]

/-! ## Parser section lemmas -/

theorem parseStep_inactive (cat line : List Char) (gs : List Goal)
    (h : line ≠ cat) : parseStep cat (false, gs) line = (false, gs) := by
  simp [parseStep, h]

theorem foldl_parseStep_inactive (cat : List Char) (pre : List (List Char))
    (gs : List Goal) (h : ∀ l ∈ pre, l ≠ cat) :
    pre.foldl (parseStep cat) (false, gs) = (false, gs) := by
  induction pre with
  | nil => rfl
  | cons l pre ih =>
    rw [List.foldl_cons, parseStep_inactive cat l gs (h l (List.mem_cons_self l pre))]
    exact ih fun x hx => h x (List.mem_cons_of_mem l hx)

theorem parseStep_header (cat : List Char) (gs : List Goal) :
    parseStep cat (false, gs) cat = (true, gs) := by
  simp [parseStep]

theorem parseStep_active (cat line : List Char) (gs : List Goal)
    (h : line ≠ []) :
    parseStep cat (true, gs) line = (true, gs ++ (lineGoal line).toList) := by
  have hlen : ¬ line.length = 0 := by simpa [List.length_eq_zero] using h
  cases hg : lineGoal line <;> simp [parseStep, hlen, hg]

theorem parseStep_blank (cat : List Char) (gs : List Goal) :
    parseStep cat (true, gs) [] = (false, gs) := by
  have hg : lineGoal [] = none := rfl
  simp [parseStep, hg]

theorem foldl_parseStep_active (cat : List Char) (body : List (List Char))
    (gs : List Goal) (h : ∀ l ∈ body, l ≠ []) :
    body.foldl (parseStep cat) (true, gs) =
      (true, gs ++ body.filterMap lineGoal) := by
  induction body generalizing gs with
  | nil => simp
  | cons l body ih =>
    rw [List.foldl_cons, parseStep_active cat l gs (h l (List.mem_cons_self l body)),
      ih _ fun x hx => h x (List.mem_cons_of_mem l hx)]
    cases hg : lineGoal l <;> simp [List.filterMap_cons, hg]

/-- A report whose trimmed line list decomposes into a prefix without the
header, the header, a blank-free section body, a blank terminator and a
suffix without the header parses to exactly the body's matching lines. -/
theorem parse_wellFormed (out cat : String) (pre body suf : List (List Char))
    (hsplit : (splitOnNL out.toList).map trimChars =
      pre ++ cat.toList :: (body ++ [] :: suf))
    (hpre : ∀ l ∈ pre, l ≠ cat.toList) (hsuf : ∀ l ∈ suf, l ≠ cat.toList)
    (hbody : ∀ l ∈ body, l ≠ []) :
    parseAvailableGradleGoals out cat = body.filterMap lineGoal := by
  unfold parseAvailableGradleGoals parseLines
  rw [hsplit, List.foldl_append, foldl_parseStep_inactive _ _ _ hpre,
    List.foldl_cons, parseStep_header, List.foldl_append,
    foldl_parseStep_active _ _ _ hbody, List.foldl_cons, parseStep_blank,
    foldl_parseStep_inactive _ _ _ hsuf]
  simp

/-- C1: for every Gradle task-report text containing a well-formed
target section (header line, task lines, terminating blank line, the header
occurring nowhere else), `parseAvailableGradleGoals` extracts exactly the
task/description pairs of that section's matching lines, in order of
appearance, excluding every other line of the report; a section with zero
matching lines yields the empty list rather than an error. -/
theorem gradle_parse_section_exact (out cat : String)
    (pre body suf : List (List Char))
    (hsplit : (splitOnNL out.toList).map trimChars =
      pre ++ cat.toList :: (body ++ [] :: suf))
    (hpre : ∀ l ∈ pre, l ≠ cat.toList) (hsuf : ∀ l ∈ suf, l ≠ cat.toList)
    (hbody : ∀ l ∈ body, l ≠ []) :
    parseAvailableGradleGoals out cat = body.filterMap lineGoal ∧
    ((∀ l ∈ body, lineGoal l = none) →
      parseAvailableGradleGoals out cat = []) := by
  have h := parse_wellFormed out cat pre body suf hsplit hpre hsuf hbody
  refine ⟨h, fun hz => ?_⟩
  rw [h]
  exact List.filterMap_eq_nil_iff.mpr hz

/-- Witness for C1 on a concrete report: only the `Build tasks` section is
captured, the divider line and the non-matching line are dropped. -/
theorem gradle_parse_section_exact_witness :
    parseAvailableGradleGoals
      "Help tasks\nfoo - F\n\nBuild tasks\nrun - Runs the app\n--------\nnoise\n\nOther tasks\nz - Z\n"
      "Build tasks" =
    List.filterMap lineGoal
      ["run - Runs the app".toList, "--------".toList, "noise".toList] :=
  (gradle_parse_section_exact _ _
    ["Help tasks".toList, "foo - F".toList, []]
    ["run - Runs the app".toList, "--------".toList, "noise".toList]
    ["Other tasks".toList, "z - Z".toList, []]
    (by decide) (by decide) (by decide) (by decide)).1

/-! ## Declarative characterization of the line regex -/

theorem matchTail_sound {cs det : List Char} (h : matchTail cs = some det) :
    ∃ w1 w2, cs = w1 ++ '-' :: (w2 ++ det) ∧
      (∀ c ∈ w1, c.isWhitespace) ∧ (∀ c ∈ w2, c.isWhitespace) := by
  unfold matchTail at h
  split at h
  next rest heq =>
    injection h with h'
    subst h'
    refine ⟨cs.takeWhile Char.isWhitespace, rest.takeWhile Char.isWhitespace,
      ?_, fun c hc => List.mem_takeWhile_imp hc,
      fun c hc => List.mem_takeWhile_imp hc⟩
    calc cs = cs.takeWhile Char.isWhitespace ++ cs.dropWhile Char.isWhitespace :=
          (List.takeWhile_append_dropWhile _ _).symm
    _ = cs.takeWhile Char.isWhitespace ++ ('-' :: rest) := by rw [heq]
    _ = cs.takeWhile Char.isWhitespace ++ ('-' ::
          (rest.takeWhile Char.isWhitespace ++ rest.dropWhile Char.isWhitespace)) := by
        rw [List.takeWhile_append_dropWhile]
  next => exact absurd h (by simp)

theorem dropWhile_append_ws {w : List Char}
    (hw : ∀ c ∈ w, c.isWhitespace) (r : List Char) :
    (w ++ r).dropWhile Char.isWhitespace = r.dropWhile Char.isWhitespace := by
  induction w with
  | nil => rfl
  | cons a w ih =>
    have ha : a.isWhitespace := hw a (List.mem_cons_self a w)
    rw [List.cons_append, List.dropWhile_cons, if_pos ha]
    exact ih fun c hc => hw c (List.mem_cons_of_mem a hc)

theorem matchTail_complete {w rest : List Char}
    (hw : ∀ c ∈ w, c.isWhitespace) :
    matchTail (w ++ '-' :: rest) = some (rest.dropWhile Char.isWhitespace) := by
  unfold matchTail
  rw [dropWhile_append_ws hw, List.dropWhile_cons, if_neg (by decide)]
  rfl

theorem matchToken_sound : ∀ {cs tok det : List Char},
    matchToken cs = some (tok, det) →
    ∃ w1 w2, cs = tok ++ (w1 ++ '-' :: (w2 ++ det)) ∧ tok ≠ [] ∧
      (∀ c ∈ tok, ¬ c.isWhitespace) ∧ (∀ c ∈ w1, c.isWhitespace) ∧
      (∀ c ∈ w2, c.isWhitespace) := by
  intro cs
  induction cs with
  | nil => intro tok det h; exact absurd h (by simp [matchToken])
  | cons c cs ih =>
    intro tok det h
    unfold matchToken at h
    by_cases hc : c.isWhitespace
    · rw [if_pos hc] at h; exact absurd h (by simp)
    · rw [if_neg hc] at h
      cases hm : matchToken cs with
      | some r =>
        obtain ⟨t, d⟩ := r
        rw [hm] at h
        injection h with h'
        obtain ⟨h1, h2⟩ := Prod.mk.injEq .. ▸ h'
        obtain ⟨w1, w2, hcs, hne, htok, hw1, hw2⟩ := ih hm
        subst h1; subst h2
        refine ⟨w1, w2, ?_, by simp, ?_, hw1, hw2⟩
        · rw [List.cons_append]; rw [hcs]
        · intro x hx
          rcases List.mem_cons.mp hx with hx | hx
          · subst hx; exact hc
          · exact htok x hx
      | none =>
        rw [hm] at h
        cases ht : matchTail cs with
        | some d =>
          rw [ht] at h
          injection h with h'
          obtain ⟨h1, h2⟩ := Prod.mk.injEq .. ▸ h'
          obtain ⟨w1, w2, hcs, hw1, hw2⟩ := matchTail_sound ht
          subst h1; subst h2
          refine ⟨w1, w2, ?_, by simp, ?_, hw1, hw2⟩
          · rw [List.singleton_append, hcs]
          · intro x hx
            rcases List.mem_cons.mp hx with hx | hx
            · subst hx; exact hc
            · exact absurd hx (List.not_mem_nil x)
        | none => rw [ht] at h; exact absurd h (by simp)

theorem matchToken_complete : ∀ {tok w rest : List Char}, tok ≠ [] →
    (∀ c ∈ tok, ¬ c.isWhitespace) → (∀ c ∈ w, c.isWhitespace) →
    (matchToken (tok ++ (w ++ '-' :: rest))).isSome := by
  intro tok
  induction tok with
  | nil => intro w rest h; exact absurd rfl h
  | cons c tok ih =>
    intro w rest _ htok hw
    have hc : ¬ c.isWhitespace := htok c (List.mem_cons_self c tok)
    rw [List.cons_append]
    unfold matchToken
    rw [if_neg hc]
    cases hm : matchToken (tok ++ (w ++ '-' :: rest)) with
    | some r => obtain ⟨t, d⟩ := r; simp
    | none =>
      cases htok' : tok with
      | nil =>
        subst htok'
        rw [List.nil_append] at hm ⊢
        rw [matchTail_complete hw]
        simp
      | cons c' tok' =>
        exfalso
        have hsome := @ih w rest (by rw [htok']; simp)
          (fun x hx => htok x (List.mem_cons_of_mem c hx)) hw
        rw [hm] at hsome
        exact absurd hsome (by simp)

theorem matchLine_sound : ∀ {cs tok det : List Char},
    matchLine cs = some (tok, det) →
    ∃ p w1 w2, cs = p ++ (tok ++ (w1 ++ '-' :: (w2 ++ det))) ∧ tok ≠ [] ∧
      (∀ c ∈ tok, ¬ c.isWhitespace) ∧ (∀ c ∈ w1, c.isWhitespace) ∧
      (∀ c ∈ w2, c.isWhitespace) := by
  intro cs
  induction cs with
  | nil => intro tok det h; exact absurd h (by simp [matchLine])
  | cons c cs ih =>
    intro tok det h
    unfold matchLine at h
    cases hm : matchToken (c :: cs) with
    | some r =>
      obtain ⟨t, d⟩ := r
      rw [hm] at h
      injection h with h'
      obtain ⟨h1, h2⟩ := Prod.mk.injEq .. ▸ h'
      subst h1; subst h2
      obtain ⟨w1, w2, hcs, hne, htok, hw1, hw2⟩ := matchToken_sound hm
      exact ⟨[], w1, w2, by rw [List.nil_append, hcs], hne, htok, hw1, hw2⟩
    | none =>
      rw [hm] at h
      obtain ⟨p, w1, w2, hcs, hne, htok, hw1, hw2⟩ := ih h
      exact ⟨c :: p, w1, w2, by rw [List.cons_append, hcs], hne, htok, hw1, hw2⟩

theorem matchLine_complete : ∀ {p tok w rest : List Char}, tok ≠ [] →
    (∀ c ∈ tok, ¬ c.isWhitespace) → (∀ c ∈ w, c.isWhitespace) →
    (matchLine (p ++ (tok ++ (w ++ '-' :: rest)))).isSome := by
  intro p
  induction p with
  | nil =>
    intro tok w rest hne htok hw
    rw [List.nil_append]
    cases tok with
    | nil => exact absurd rfl hne
    | cons c tok' =>
      have hmt := @matchToken_complete (c :: tok') w rest hne htok hw
      rw [List.cons_append] at hmt ⊢
      unfold matchLine
      cases hm : matchToken (c :: (tok' ++ (w ++ '-' :: rest))) with
      | some r => obtain ⟨t, d⟩ := r; simp
      | none => rw [hm] at hmt; exact absurd hmt (by simp)
  | cons c p ih =>
    intro tok w rest hne htok hw
    rw [List.cons_append]
    unfold matchLine
    cases hm : matchToken (c :: (p ++ (tok ++ (w ++ '-' :: rest)))) with
    | some r => obtain ⟨t, d⟩ := r; simp
    | none => exact ih hne htok hw

/-- C3: while the parser's inside-section flag is true, a blank line
clears the flag, a line beginning with the divider prefix `---` is skipped
(state unchanged), and any other line emits a Goal exactly when it matches
the pattern token / optional whitespace / hyphen / optional whitespace /
description-to-end-of-line, the Goal carrying that token as label and that
description as detail; every in-section line not matching the pattern is
silently dropped with nothing emitted. -/
theorem parse_step_inside_section (cat line : List Char) (gs : List Goal) :
    (line = [] → parseStep cat (true, gs) line = (false, gs)) ∧
    (['-', '-', '-'].isPrefixOf line →
      parseStep cat (true, gs) line = (true, gs)) ∧
    (¬ ['-', '-', '-'].isPrefixOf line → line ≠ [] →
      ((∃ g, parseStep cat (true, gs) line = (true, gs ++ [g]) ∧
          PatternMatch line g.label g.detail) ∨
        (parseStep cat (true, gs) line = (true, gs) ∧
          ∀ lab det, ¬ PatternMatch line lab det))) := by
  refine ⟨fun h => h ▸ parseStep_blank cat gs, fun hdiv => ?_, fun hdiv hne => ?_⟩
  · have hne : line ≠ [] := by
      intro h
      rw [h] at hdiv
      exact absurd hdiv (by decide)
    have hg : lineGoal line = none := by rw [lineGoal, if_pos hdiv]
    rw [parseStep_active cat line gs hne, hg]
    simp
  · have hg : lineGoal line =
        match matchLine line with
        | some (tok, det) => some ⟨String.mk tok, String.mk det⟩
        | none => none := by rw [lineGoal, if_neg hdiv]
    rw [parseStep_active cat line gs hne, hg]
    cases hm : matchLine line with
    | some r =>
      obtain ⟨tok, det⟩ := r
      left
      refine ⟨⟨String.mk tok, String.mk det⟩, by simp, ?_⟩
      obtain ⟨p, w1, w2, hcs, hne', htok, hw1, hw2⟩ := matchLine_sound hm
      exact ⟨p, w1, w2, by simpa using hcs, by simpa using hne',
        by simpa using htok, hw1, hw2⟩
    | none =>
      right
      refine ⟨by simp, fun lab det hpm => ?_⟩
      obtain ⟨p, w1, w2, hcs, hne', htok, hw1, hw2⟩ := hpm
      have := @matchLine_complete p lab.toList w1 (w2 ++ det.toList)
        hne' htok hw1
      rw [show p ++ (lab.toList ++ (w1 ++ '-' :: (w2 ++ det.toList))) = line by
        rw [hcs]; simp, hm] at this
      exact absurd this (by simp)

/-- Witness for C3 at concrete inputs: the blank line clears the flag. -/
theorem parse_step_inside_section_witness :
    parseStep "Build tasks".toList (true, []) [] = (false, []) :=
  (parse_step_inside_section "Build tasks".toList [] []).1 rfl

/-! ## Command synthesis lemmas -/

theorem escapeWSAux_ne_nil (b : Bool) (c : Char) (cs : List Char) :
    escapeWSAux b (c :: cs) ≠ [] := by
  unfold escapeWSAux
  by_cases hc : c.isWhitespace <;> cases b <;> simp [hc]

theorem escapeString_ne_empty {s : String} (h : s ≠ "") :
    escapeString s ≠ "" := by
  intro hcon
  have hdata : escapeWSAux false s.toList = [] := congrArg String.data hcon
  cases hs : s.toList with
  | nil =>
    apply h
    apply String.ext
    simpa [String.toList] using hs
  | cons c cs =>
    rw [hs] at hdata
    exact escapeWSAux_ne_nil false c cs hdata

/-- C2: for every (non-empty) abstract goal identifier and located Maven
wrapper, the synthesized command is the escaped wrapper path, a space, and
the goal translated through the fixed table, identifiers outside the table
passing through unchanged. -/
theorem maven_command_translation (fsPath goal : String)
    (hp : fsPath ≠ "") (hg : goal ≠ "") :
    terminalMavenCommandFor fsPath goal =
      some (escapeString fsPath ++ " " ++
        ((mavenGoalTable.lookup goal).getD goal)) := by
  have he := escapeString_ne_empty hp
  unfold terminalMavenCommandFor
  rw [if_neg he]
  by_cases h1 : goal = "build"
  · subst h1; simp [mavenGoalTable, List.lookup]
  by_cases h2 : goal = "nativeImage"
  · subst h2; simp [mavenGoalTable, List.lookup]
  by_cases h3 : goal = "dockerBuild"
  · subst h3; simp [mavenGoalTable, List.lookup]
  by_cases h4 : goal = "dockerBuildNative"
  · subst h4; simp [mavenGoalTable, List.lookup]
  by_cases h5 : goal = "dockerPush"
  · subst h5; simp [mavenGoalTable, List.lookup]
  by_cases h6 : goal = "dockerPushNative"
  · subst h6; simp [mavenGoalTable, List.lookup]
  have b1 : (goal == "build") = false := by simp [h1]
  have b2 : (goal == "nativeImage") = false := by simp [h2]
  have b3 : (goal == "dockerBuild") = false := by simp [h3]
  have b4 : (goal == "dockerBuildNative") = false := by simp [h4]
  have b5 : (goal == "dockerPush") = false := by simp [h5]
  have b6 : (goal == "dockerPushNative") = false := by simp [h6]
  simp [mavenGoalTable, List.lookup, b1, b2, b3, b4, b5, b6,
    h1, h2, h3, h4, h5, h6, hg]

/-- Witness for C2: a wrapper path with a space and the `nativeImage`
goal. -/
theorem maven_command_translation_witness :
    terminalMavenCommandFor "m w" "nativeImage" =
      some "m\\ w package -Dpackaging=native-image" := by
  rw [maven_command_translation "m w" "nativeImage" (by decide) (by decide)]
  rfl

/-! ## The whitespace-escape characterization (C5) -/

theorem escapeWSAux_true_ws : ∀ {w' l2 : List Char},
    (∀ c ∈ w', c.isWhitespace) →
    (∀ c, l2.head? = some c → ¬ c.isWhitespace) →
    escapeWSAux true (w' ++ l2) = w' ++ escapeWSAux false l2 := by
  intro w'
  induction w' with
  | nil =>
    intro l2 _ hl2
    rw [List.nil_append, List.nil_append]
    cases l2 with
    | nil => rfl
    | cons c cs =>
      have hc : ¬ c.isWhitespace := hl2 c rfl
      simp [escapeWSAux, hc]
  | cons a w' ih =>
    intro l2 hw hl2
    have ha : a.isWhitespace := hw a (List.mem_cons_self a w')
    rw [List.cons_append]
    simp [escapeWSAux, ha]
    exact ih (fun c hc => hw c (List.mem_cons_of_mem a hc)) hl2

theorem escapeWS_ws_run {w l2 : List Char} (hne : w ≠ [])
    (hws : ∀ c ∈ w, c.isWhitespace)
    (hl2 : ∀ c, l2.head? = some c → ¬ c.isWhitespace) :
    escapeWSAux false (w ++ l2) = '\\' :: (w ++ escapeWSAux false l2) := by
  cases w with
  | nil => exact absurd rfl hne
  | cons c w' =>
    have hc : c.isWhitespace := hws c (List.mem_cons_self c w')
    rw [List.cons_append]
    simp [escapeWSAux, hc]
    exact escapeWSAux_true_ws (fun x hx => hws x (List.mem_cons_of_mem c hx)) hl2

theorem escapeWSAux_cons (b : Bool) (a : Char) (cs : List Char) :
    escapeWSAux b (a :: cs) =
      if a.isWhitespace then
        (if b then a :: escapeWSAux true cs
          else '\\' :: a :: escapeWSAux true cs)
      else a :: escapeWSAux false cs := rfl

theorem escapeWSAux_append_lastNonWS : ∀ {l1 : List Char} (b : Bool)
    (r : List Char), l1 ≠ [] →
    (∀ c, l1.getLast? = some c → ¬ c.isWhitespace) →
    escapeWSAux b (l1 ++ r) = escapeWSAux b l1 ++ escapeWSAux false r := by
  intro l1
  induction l1 with
  | nil => intro b r h _; exact absurd rfl h
  | cons a tail ih =>
    intro b r _ hl1
    cases tail with
    | nil =>
      have ha : ¬ a.isWhitespace := hl1 a rfl
      rw [List.cons_append, List.nil_append]
      simp [escapeWSAux, ha]
    | cons c' t' =>
      have hlast : ∀ c, (c' :: t').getLast? = some c → ¬ c.isWhitespace := by
        intro c hcl
        exact hl1 c (by rw [List.getLast?_cons_cons]; exact hcl)
      have hne : (c' : Char) :: t' ≠ [] := by simp
      have ih1 := ih true r hne hlast
      have ih0 := ih false r hne hlast
      rw [List.cons_append, escapeWSAux_cons b a ((c' :: t') ++ r),
        escapeWSAux_cons b a (c' :: t')]
      by_cases ha : a.isWhitespace
      · rw [if_pos ha, if_pos ha]
        cases b
        · simp only [Bool.false_eq_true, if_false]
          rw [ih1]
          simp
        · simp only [if_true]
          rw [ih1]
          simp
      · rw [if_neg ha, if_neg ha, ih0]
        simp

/-- Escaping rewrites one maximal whitespace run to a backslash followed
by the run, leaving the surrounding text escaped independently. -/
theorem escapeWS_run (l1 w l2 : List Char) (hw : w ≠ [])
    (hws : ∀ c ∈ w, c.isWhitespace)
    (hl1 : ∀ c, l1.getLast? = some c → ¬ c.isWhitespace)
    (hl2 : ∀ c, l2.head? = some c → ¬ c.isWhitespace) :
    escapeWS (l1 ++ (w ++ l2)) = escapeWS l1 ++ '\\' :: (w ++ escapeWS l2) := by
  unfold escapeWS
  by_cases hl : l1 = []
  · subst hl
    rw [List.nil_append]
    exact escapeWS_ws_run hw hws hl2
  · rw [escapeWSAux_append_lastNonWS false _ hl hl1, escapeWS_ws_run hw hws hl2]

/-- C5: the Gradle command line is exactly the escaped wrapper path, a
space, the goal unchanged, a space, and `--no-daemon`; the escaping
replaces each maximal whitespace run of the path by that run prefixed with
a backslash. -/
theorem gradle_command_shape_escape (fsPath goal : String) (h : fsPath ≠ "") :
    terminalGradleCommandFor fsPath goal =
      some (escapeString fsPath ++ " " ++ goal ++ " --no-daemon") ∧
    ∀ l1 w l2, fsPath.toList = l1 ++ (w ++ l2) → w ≠ [] →
      (∀ c ∈ w, c.isWhitespace) →
      (∀ c, l1.getLast? = some c → ¬ c.isWhitespace) →
      (∀ c, l2.head? = some c → ¬ c.isWhitespace) →
      (escapeString fsPath).toList = escapeWS l1 ++ '\\' :: (w ++ escapeWS l2) := by
  refine ⟨?_, ?_⟩
  · unfold terminalGradleCommandFor
    rw [if_neg (escapeString_ne_empty h)]
  · intro l1 w l2 hdec hw hws hl1 hl2
    have hto : (escapeString fsPath).toList = escapeWS fsPath.toList := rfl
    rw [hto, hdec, escapeWS_run l1 w l2 hw hws hl1 hl2]

/-- Witness for C5: a wrapper path containing a space yields that space
prefixed with a backslash in the synthesized command line. -/
theorem gradle_command_shape_escape_witness :
    terminalGradleCommandFor "a b" "run" = some "a\\ b run --no-daemon" := by
  rw [(gradle_command_shape_escape "a b" "run" (by decide)).1]
  rfl

/-! ## C4: duplicate identifiers in the catalogs -/

/-- Counterexample to C4 as stated: the Gradle parsing path performs no
deduplication, so a catalog produced from a report repeating a task name
inside the captured section has a duplicated identifier in its build
sequence. -/
theorem goal_catalog_nodup_counterexample :
    ¬ (((getAvailableGradleGoals
        ⟨some "gw", none, "Build tasks\nrun - a\nrun - b\n\n"⟩
        "gw").build.map Goal.label).Nodup) := by
  decide

/-- C4 (amended): the hardcoded Maven catalog contains no duplicate
identifier in either sequence, and a sequence parsed from a well-formed
Gradle section is duplicate-free exactly to the extent that the section's
matching lines carry pairwise distinct task tokens. -/
theorem goal_catalog_nodup_amended :
    ((getAvailableMavenGoals.build.map Goal.label).Nodup ∧
      (getAvailableMavenGoals.deploy.map Goal.label).Nodup) ∧
    ∀ (out cat : String) (pre body suf : List (List Char)),
      (splitOnNL out.toList).map trimChars =
        pre ++ cat.toList :: (body ++ [] :: suf) →
      (∀ l ∈ pre, l ≠ cat.toList) → (∀ l ∈ suf, l ≠ cat.toList) →
      (∀ l ∈ body, l ≠ []) →
      ((body.filterMap lineGoal).map Goal.label).Nodup →
      ((parseAvailableGradleGoals out cat).map Goal.label).Nodup := by
  refine ⟨⟨by decide, by decide⟩, ?_⟩
  intro out cat pre body suf hsplit hpre hsuf hbody hdist
  rw [parse_wellFormed out cat pre body suf hsplit hpre hsuf hbody]
  exact hdist

/-- Witness for the amended C4 on a concrete report with distinct task
names. -/
theorem goal_catalog_nodup_amended_witness :
    ((parseAvailableGradleGoals "Build tasks\nrun - R\nhelp - H\n\n"
        "Build tasks").map Goal.label).Nodup :=
  goal_catalog_nodup_amended.2 "Build tasks\nrun - R\nhelp - H\n\n"
    "Build tasks" [] ["run - R".toList, "help - H".toList] [[]]
    (by decide) (by decide) (by decide) (by decide) (by decide)

/-! ## Build driver lemmas -/

theorem append_ne_empty_of_ne (a b : String) (hb : b ≠ "") : a ++ b ≠ "" := by
  intro h
  apply hb
  apply String.ext
  have hd := congrArg String.data h
  rw [String.data_append] at hd
  exact (List.append_eq_nil.mp hd).2

theorem terminalCommandFor_gradle_some {ws : Workspace} {w : String}
    (hw : ws.gradleWrapper = some w) (hne : w ≠ "") (goal : String) :
    terminalCommandFor ws goal =
      some (escapeString w ++ " " ++ goal ++ " --no-daemon") ∧
    escapeString w ++ " " ++ goal ++ " --no-daemon" ≠ "" := by
  constructor
  · simp [terminalCommandFor, buildWrapper, hw, terminalGradleCommandFor,
      escapeString_ne_empty hne]
  · exact append_ne_empty_of_ne _ _ (by decide)

theorem proceedBuild_some {env : Env} {goal c : String}
    (shown offered warned : Bool)
    (hc : terminalCommandFor env.workspace goal = some c) (hcne : c ≠ "") :
    proceedBuild env shown goal offered warned =
      { pickerShown := shown, chosenGoal := some goal,
        installOffered := offered, installAborted := false,
        warningShown := warned, command := some c,
        terminalDisposed := env.hasMicronautTerminal,
        terminalCreated := true, errorThrown := false } := by
  simp [proceedBuild, hc, hcne]

theorem proceedBuild_none {env : Env} {goal : String} (shown offered warned : Bool)
    (hc : terminalCommandFor env.workspace goal = none) :
    proceedBuild env shown goal offered warned =
      { pickerShown := shown, chosenGoal := some goal,
        installOffered := offered, installAborted := false,
        warningShown := warned, command := none, terminalDisposed := false,
        terminalCreated := false, errorThrown := true } := by
  simp [proceedBuild, hc]

theorem proceedBuild_fields (env : Env) (shown : Bool) (g : String)
    (offered warned : Bool) :
    (proceedBuild env shown g offered warned).pickerShown = shown ∧
    (proceedBuild env shown g offered warned).chosenGoal = some g := by
  rcases h : terminalCommandFor env.workspace g with _ | c
  · simp [proceedBuild, h]
  · by_cases hc : c = "" <;> simp [proceedBuild, h, hc]

theorem runGoal_fields (env : Env) (shown : Bool) (g : String) :
    (runGoal env shown g).pickerShown = shown ∧
    (runGoal env shown g).chosenGoal = some g := by
  unfold runGoal
  split_ifs <;> first
    | exact proceedBuild_fields env shown g _ _
    | exact ⟨rfl, rfl⟩

theorem build_explicit_goal (catalog : Goals) (env : Env) (g : String)
    (hg : g ≠ "") (group0 : Option String) :
    build catalog env (some g) group0 = runGoal env false g := by
  simp [build, selectGoal, truthyS, hg]

theorem runGoal_not_native (env : Env) (shown : Bool) (g : String)
    (hg : ¬ (g = "nativeImage" ∨ g = "dockerBuildNative")) :
    runGoal env shown g = proceedBuild env shown g false false := by
  unfold runGoal
  rw [if_neg (fun hc => hg hc.2)]

theorem runGoal_native_missing (env : Env) (shown : Bool) (g : String)
    (hg : g = "nativeImage" ∨ g = "dockerBuildNative")
    (hjh : truthyS env.javaHome = true) (hni : env.hasNativeImage = false) :
    runGoal env shown g =
      if env.hasGu then
        (if env.acceptInstall then
          { pickerShown := shown, chosenGoal := some g, installOffered := true,
            installAborted := true, warningShown := false, command := none,
            terminalDisposed := false, terminalCreated := false,
            errorThrown := false }
        else proceedBuild env shown g true false)
      else proceedBuild env shown g false true := by
  unfold runGoal
  rw [if_pos ⟨hjh, hg⟩, hni]
  simp

/-! ## C6: no wrapper at all -/

/-- C6: with neither wrapper present, catalog initialization yields
both sequences empty, goal resolution falls back to the hardcoded default
`build`, command synthesis yields no command, and the caller surfaces the
absence as a thrown error (`No terminal command for build`). -/
theorem no_wrapper_empty_catalog_error (env : Env)
    (hg : env.workspace.gradleWrapper = none)
    (hm : env.workspace.mavenWrapper = none) :
    builderInit env.workspace = { build := [], deploy := [] } ∧
    terminalCommandFor env.workspace "build" = none ∧
    build (builderInit env.workspace) env none none =
      { pickerShown := false, chosenGoal := some "build",
        installOffered := false, installAborted := false,
        warningShown := false, command := none, terminalDisposed := false,
        terminalCreated := false, errorThrown := true } := by
  have hinit : builderInit env.workspace = { build := [], deploy := [] } := by
    simp [builderInit, buildWrapper, hg, hm]
  have hcmd : terminalCommandFor env.workspace "build" = none := by
    simp [terminalCommandFor, buildWrapper, hg, hm]
  refine ⟨hinit, hcmd, ?_⟩
  rw [hinit]
  have hsel : selectGoal (goalsFor { build := [], deploy := [] }
      (normGroup none)) env none = (false, some "build") := rfl
  have hrun : runGoal env false "build" =
      proceedBuild env false "build" false false :=
    runGoal_not_native env false "build" (by simp)
  simp only [build, hsel]
  rw [if_neg (by decide : ¬ ("build" : String) = ""), hrun,
    proceedBuild_none false false false hcmd]

/-- Witness for C6 at a fully concrete environment. -/
theorem no_wrapper_empty_catalog_error_witness :
    builderInit ⟨none, none, ""⟩ = { build := [], deploy := [] } ∧
    terminalCommandFor ⟨none, none, ""⟩ "build" = none ∧
    build (builderInit ⟨none, none, ""⟩)
      ⟨⟨none, none, ""⟩, none, false, false, fun _ => none, false, false⟩
      none none =
      { pickerShown := false, chosenGoal := some "build",
        installOffered := false, installAborted := false,
        warningShown := false, command := none, terminalDisposed := false,
        terminalCreated := false, errorThrown := true } :=
  no_wrapper_empty_catalog_error
    ⟨⟨none, none, ""⟩, none, false, false, fun _ => none, false, false⟩ rfl rfl

/-! ## C7: dispatcher priority -/

/-- C7: the dispatcher invokes the Gradle handler exactly when a Gradle
wrapper is found, the Maven handler only when no Gradle wrapper but a Maven
wrapper is found, and nothing when neither is found; consequently, with
both wrappers present, catalog population and command synthesis both
resolve via the Gradle path. -/
theorem wrapper_dispatch_priority (ws : Workspace) :
    (∀ (T : Type) (g m : String → T) (w : String),
      ws.gradleWrapper = some w →
      buildWrapper ws (some g) (some m) = some (g w)) ∧
    (∀ (T : Type) (g m : String → T) (w : String),
      ws.gradleWrapper = none → ws.mavenWrapper = some w →
      buildWrapper ws (some g) (some m) = some (m w)) ∧
    (∀ (T : Type) (g m : String → T),
      ws.gradleWrapper = none → ws.mavenWrapper = none →
      buildWrapper ws (some g) (some m) = none) ∧
    (∀ (wg wm goal : String),
      ws.gradleWrapper = some wg → ws.mavenWrapper = some wm →
      builderInit ws = getAvailableGradleGoals ws wg ∧
      terminalCommandFor ws goal = terminalGradleCommandFor wg goal) := by
  refine ⟨?_, ?_, ?_, ?_⟩
  · intro T g m w hw
    simp [buildWrapper, hw]
  · intro T g m w hgw hmw
    simp [buildWrapper, hgw, hmw]
  · intro T g m hgw hmw
    simp [buildWrapper, hgw, hmw]
  · intro wg wm goal hgw hmw
    constructor
    · simp [builderInit, buildWrapper, hgw]
    · simp [terminalCommandFor, buildWrapper, hgw]

/-- Witness for C7: with both wrappers present the catalog is the
Gradle-parsed one. -/
theorem wrapper_dispatch_priority_witness :
    builderInit ⟨some "gw", some "mw", "Build tasks\nrun - R\n\n"⟩ =
      getAvailableGradleGoals
        ⟨some "gw", some "mw", "Build tasks\nrun - R\n\n"⟩ "gw" :=
  ((wrapper_dispatch_priority
    ⟨some "gw", some "mw", "Build tasks\nrun - R\n\n"⟩).2.2.2
    "gw" "mw" "build" rfl rfl).1

/-! ## C8: the native-image pre-check -/

/-- Counterexample to C8 as stated: with `gu` present and the user
dismissing the offered install action, the build request is **not**
aborted — the command is synthesized and executed anyway. -/
theorem native_precheck_counterexample :
    (build { build := [], deploy := [] }
      ⟨⟨some "gw", none, ""⟩, some "jh", false, true, fun _ => none,
        false, false⟩
      (some "nativeImage") none).installOffered = true ∧
    (build { build := [], deploy := [] }
      ⟨⟨some "gw", none, ""⟩, some "jh", false, true, fun _ => none,
        false, false⟩
      (some "nativeImage") none).command =
      some "gw nativeImage --no-daemon" := by
  constructor <;> decide

/-- C8 (amended): when the chosen goal is `nativeImage` or
`dockerBuildNative`, a Java home is configured and it lacks
`native-image`: if `gu` is found the user is offered the install action,
the request being aborted (no command synthesized or executed) exactly
when the user accepts the offer, while dismissing it proceeds to synthesis
and execution; if `gu` is absent a warning is emitted and synthesis
proceeds; in neither case is a hard failure raised (given a located
wrapper). -/
theorem native_precheck_amended (catalog : Goals) (env : Env) (g : String)
    (hg : g = "nativeImage" ∨ g = "dockerBuildNative")
    (hjh : truthyS env.javaHome = true)
    (hni : env.hasNativeImage = false)
    (hw : ∃ w, env.workspace.gradleWrapper = some w ∧ w ≠ "") :
    (env.hasGu = true →
      (build catalog env (some g) none).installOffered = true ∧
      (env.acceptInstall = true →
        (build catalog env (some g) none).installAborted = true ∧
        (build catalog env (some g) none).command = none ∧
        (build catalog env (some g) none).terminalCreated = false ∧
        (build catalog env (some g) none).errorThrown = false) ∧
      (env.acceptInstall = false →
        (build catalog env (some g) none).command =
          terminalCommandFor env.workspace g ∧
        (build catalog env (some g) none).command.isSome = true ∧
        (build catalog env (some g) none).errorThrown = false)) ∧
    (env.hasGu = false →
      (build catalog env (some g) none).warningShown = true ∧
      (build catalog env (some g) none).command =
        terminalCommandFor env.workspace g ∧
      (build catalog env (some g) none).command.isSome = true ∧
      (build catalog env (some g) none).errorThrown = false) := by
  obtain ⟨w, hw, hwne⟩ := hw
  obtain ⟨hcmd, hcne⟩ := terminalCommandFor_gradle_some hw hwne g
  have hgne : g ≠ "" := by rcases hg with h | h <;> subst h <;> decide
  rw [build_explicit_goal catalog env g hgne none,
    runGoal_native_missing env false g hg hjh hni]
  constructor
  · intro hgu
    rw [hgu, if_pos rfl]
    cases hai : env.acceptInstall
    · rw [if_neg (by simp), proceedBuild_some false true false hcmd hcne]
      exact ⟨rfl, fun h => Bool.noConfusion h,
        fun _ => ⟨by rw [hcmd], rfl, rfl⟩⟩
    · rw [if_pos rfl]
      exact ⟨rfl, fun _ => ⟨rfl, rfl, rfl, rfl⟩, fun h => Bool.noConfusion h⟩
  · intro hgu
    rw [hgu, if_neg (by simp), proceedBuild_some false false true hcmd hcne]
    exact ⟨rfl, by rw [hcmd], rfl, rfl⟩

/-- Witness for the amended C8: concrete environment with `gu` present and
the install action accepted — the request is aborted without a command. -/
theorem native_precheck_amended_witness :
    (build { build := [], deploy := [] }
      ⟨⟨some "gw", none, ""⟩, some "jh", false, true, fun _ => none,
        true, false⟩
      (some "nativeImage") none).installAborted = true ∧
    (build { build := [], deploy := [] }
      ⟨⟨some "gw", none, ""⟩, some "jh", false, true, fun _ => none,
        true, false⟩
      (some "nativeImage") none).command = none :=
  ((native_precheck_amended { build := [], deploy := [] }
    ⟨⟨some "gw", none, ""⟩, some "jh", false, true, fun _ => none,
      true, false⟩
    "nativeImage" (Or.inl rfl) rfl rfl ⟨"gw", rfl, by decide⟩).1 rfl).2.1 rfl
    |>.imp (fun h => h) (fun h => h.1)

/-! ## C9 and C10: goal selection -/

theorem selectGoal_not_shown (items : List Goal) (env : Env)
    (h : ¬ 1 < items.length) :
    (selectGoal items env none).1 = false := by
  unfold selectGoal
  rw [show truthyS none = false from rfl]
  simp only [Bool.false_eq_true, if_false]
  by_cases h0 : items.length = 0
  · rw [if_pos h0]
  · rw [if_neg h0, if_neg h]
    rcases items.head? with _ | it <;> rfl

theorem build_pickerShown (catalog : Goals) (env : Env)
    (goal0 group0 : Option String) :
    (build catalog env goal0 group0).pickerShown =
      (selectGoal (goalsFor catalog (normGroup group0)) env goal0).1 := by
  simp only [build]
  split
  · split_ifs
    · rfl
    · exact (runGoal_fields env _ _).1
  · rfl

/-- C9: invoking `build` without an explicit goal and dismissing the
goal picker aborts the whole action silently: no goal chosen, no command
synthesized, no terminal disposed or created, no error raised. -/
theorem picker_dismiss_silent_abort (catalog : Goals) (env : Env)
    (group0 : Option String)
    (hlen : 1 < (goalsFor catalog (normGroup group0)).length)
    (hq : env.quickPick (goalsFor catalog (normGroup group0)) = none) :
    build catalog env none group0 = idleResult true := by
  have hsel : selectGoal (goalsFor catalog (normGroup group0)) env none =
      (true, none) := by
    unfold selectGoal
    rw [show truthyS none = false from rfl]
    simp only [Bool.false_eq_true, if_false]
    rw [if_neg (by omega : ¬ (goalsFor catalog (normGroup group0)).length = 0),
      if_pos hlen, hq]
  simp [build, hsel]

/-- Witness for C9: a two-goal catalog whose pick is dismissed. -/
theorem picker_dismiss_silent_abort_witness :
    build ⟨[⟨"a", "A"⟩, ⟨"b", "B"⟩], []⟩
      ⟨⟨some "gw", none, ""⟩, none, false, false, fun _ => none, false, false⟩
      none none = idleResult true :=
  picker_dismiss_silent_abort ⟨[⟨"a", "A"⟩, ⟨"b", "B"⟩], []⟩
    ⟨⟨some "gw", none, ""⟩, none, false, false, fun _ => none, false, false⟩
    none (by decide) rfl

/-- C10: with no explicit goal, a singleton group catalog selects its
goal automatically without showing the picker, and the interactive picker
is shown only when the group contains two or more goals. -/
theorem single_goal_auto_pick (catalog : Goals) (env : Env)
    (group0 : Option String) :
    (∀ g : Goal, goalsFor catalog (normGroup group0) = [g] →
      (build catalog env none group0).pickerShown = false ∧
      (g.label ≠ "" →
        (build catalog env none group0).chosenGoal = some g.label)) ∧
    ((build catalog env none group0).pickerShown = true →
      2 ≤ (goalsFor catalog (normGroup group0)).length) := by
  constructor
  · intro g hitems
    have hsel : selectGoal (goalsFor catalog (normGroup group0)) env none =
        (false, some g.label) := by
      rw [hitems]
      rfl
    constructor
    · rw [build_pickerShown, hsel]
    · intro hl
      simp only [build, hsel]
      rw [if_neg hl]
      exact (runGoal_fields env false g.label).2
  · intro hshown
    by_cases hlen : 1 < (goalsFor catalog (normGroup group0)).length
    · omega
    · rw [build_pickerShown, selectGoal_not_shown _ env hlen] at hshown
      cases hshown

/-- Witness for C10: a singleton build catalog chooses its goal with no
picker. -/
theorem single_goal_auto_pick_witness :
    (build ⟨[⟨"assemble", "A"⟩], []⟩
      ⟨⟨some "gw", none, ""⟩, none, false, false, fun _ => none, false, false⟩
      none none).pickerShown = false ∧
    (build ⟨[⟨"assemble", "A"⟩], []⟩
      ⟨⟨some "gw", none, ""⟩, none, false, false, fun _ => none, false, false⟩
      none none).chosenGoal = some "assemble" := by
  have h := (single_goal_auto_pick ⟨[⟨"assemble", "A"⟩], []⟩
    ⟨⟨some "gw", none, ""⟩, none, false, false, fun _ => none, false, false⟩
    none).1 ⟨"assemble", "A"⟩ rfl
  exact ⟨h.1, h.2 (by decide)⟩

end Micronaut
